import Mathlib

/-!
Shallow embedding of `src/metadata.py` (class `DatabaseProcessor`), a
metadata-driven column-cleaning utility: it renames dataframe columns
according to a mapping loaded from JSON and rewrites categorical codes
into "code: description" strings.

Modelling conventions:
* A pandas cell value is either a number or a string.  Python floats are
  modelled as exact decimal fractions `Value.num n d` (the rational `n / d`);
  Python `==` between cells is `pyEq` (numeric cross-multiplication for
  numbers, exact equality for strings, `False` across kinds), which is how
  `pandas.Series.replace` selects the cells to rewrite.
* A Python `dict` is an association list with unique keys; insertion with an
  existing key overwrites in place (`dinsert`), lookup is `dlookup`, and
  iteration order is list order (Python dicts preserve insertion order).
* Raising an exception is modelled with `Except` / a `PyError` value.
-/

/-- A cell value of the dataframe: a number (the exact rational `n / d`,
standing for a Python int/float) or a string. -/
inductive Value where
  | num (n : Int) (d : Nat)
  | str (s : String)
  deriving DecidableEq, Repr

/-- Python `==` on cell values: numbers compare numerically
(cross-multiplication of the exact fractions), strings compare exactly,
and a number never equals a string. -/
def pyEq : Value → Value → Bool
  | .num a b, .num c d => decide (a * (d : Int) = c * (b : Int))
  | .str s, .str t => decide (s = t)
  | _, _ => false

/-- A dataframe: an ordered collection of named columns, each an ordered
sequence of cell values. -/
structure Table where
  cols : List (String × List Value)
  deriving DecidableEq, Repr

/-- First-match association-list lookup (Python `dict` access). -/
def dlookup {α : Type} : List (String × α) → String → Option α
  | [], _ => none
  | p :: ps, k => if p.1 = k then some p.2 else dlookup ps k

/-- Python `dict` assignment `d[k] = v`: overwrite in place when the key is
present, append otherwise. -/
def dinsert {α : Type} (d : List (String × α)) (k : String) (v : α) :
    List (String × α) :=
  if d.any (fun p => decide (p.1 = k)) then
    d.map (fun p => if p.1 = k then (k, v) else p)
  else
    d ++ [(k, v)]

/-- `column_name in df.columns`. -/
def Table.hasCol (df : Table) (n : String) : Bool :=
  df.cols.any (fun c => decide (c.1 = n))

/-- `df[column_name]` (first column with that name; `[]` if absent, which is
only used under a `hasCol` guard). -/
def Table.getColD (df : Table) (n : String) : List Value :=
  match df.cols.find? (fun c => decide (c.1 = n)) with
  | some c => c.2
  | none => []

/-- `df[column_name] = vs`: overwrite the values of every column named `n`. -/
def Table.setCol (df : Table) (n : String) (vs : List Value) : Table :=
  ⟨df.cols.map (fun c => if c.1 = n then (c.1, vs) else c)⟩

/-- One entry of the configuration's `column_mappings` object:
`{"new_name": ..., "type": ..., "categories": ...}` (a `categories` of
`none` models JSON `null`). -/
structure ColumnInfo where
  new_name : String
  type : String
  categories : Option (List (String × String))
  deriving DecidableEq, Repr

/-- The loaded `column_mappings` dict: original column name to its entry. -/
abbrev Metadata := List (String × ColumnInfo)

/-- Python truthiness of the `categories` field: `None` and `{}` are falsy. -/
def catTruthy : Option (List (String × String)) → Bool
  | none => false
  | some l => !l.isEmpty

/-- `DatabaseProcessor.get_column_mapping`: the dict comprehension
`{old_name: info['new_name'] for old_name, info in self.column_mappings.items()}`. -/
def get_column_mapping (m : Metadata) : List (String × String) :=
  m.foldl (fun acc p => dinsert acc p.1 p.2.new_name) []

/-- The guard of `get_categorical_columns`:
`info['type'] == 'categorical' and info['categories']`. -/
def categoricalGuard (p : String × ColumnInfo) : Bool :=
  decide (p.2.type = "categorical") && catTruthy p.2.categories

/-- `DatabaseProcessor.get_categorical_columns`: builds
`categorical[info['new_name']] = info['categories']` for every entry passing
the guard. -/
def get_categorical_columns (m : Metadata) :
    List (String × List (String × String)) :=
  m.foldl
    (fun acc p =>
      if categoricalGuard p then dinsert acc p.2.new_name (p.2.categories.getD [])
      else acc)
    []

/-- `DatabaseProcessor.rename_columns`: keep only the mapping entries whose
original name is a column of `df`; if none, warn and return `df` unchanged,
otherwise `df.rename(columns=existing_mapping)`.  The second component is the
list of printed lines. -/
def rename_columns (m : Metadata) (df : Table) : Table × List String :=
  let column_mapping := get_column_mapping m
  let existing_mapping := column_mapping.filter (fun p => df.hasCol p.1)
  if existing_mapping.isEmpty then
    (df, ["Warning: No matching columns found to rename"])
  else
    (⟨df.cols.map (fun c => ((dlookup existing_mapping c.1).getD c.1, c.2))⟩,
      s!"Renamed columns" :: existing_mapping.map (fun p => s!"  {p.1} -> {p.2}"))

/-- Characters of the code string with every `'.'` removed:
`code.replace('.', '')`. -/
def stripDots (code : String) : List Char :=
  code.data.filter (fun c => decide (c ≠ '.'))

/-- `code.replace('.', '').isdigit()`: non-empty and all (ASCII) digits after
removing every decimal point. -/
def isNumericCode (code : String) : Bool :=
  !(stripDots code).isEmpty && (stripDots code).all Char.isDigit

/-- The numeric value of a list of digit characters. -/
def natValL (l : List Char) : Nat :=
  l.foldl (fun n c => 10 * n + (c.toNat - 48)) 0

/-- Split a character list at every `'.'`. -/
def splitDots : List Char → List (List Char)
  | [] => [[]]
  | c :: cs =>
    let r := splitDots cs
    if c = '.' then [] :: r
    else
      match r with
      | h :: t => (c :: h) :: t
      | [] => [[c]]

/-- Python `float(code)` restricted to strings of digits and dots: succeeds
(with the exact decimal fraction, as numerator and denominator) when the
string has at most one decimal point and at least one digit, and fails with
`ValueError` (`none`) otherwise — in particular on a second decimal point. -/
def parseFloatCode (code : String) : Option (Int × Nat) :=
  match splitDots code.data with
  | [s] =>
    if !s.isEmpty && s.all Char.isDigit then some ((natValL s : Int), 1) else none
  | [a, b] =>
    if !(a ++ b).isEmpty && (a ++ b).all Char.isDigit then
      some ((natValL (a ++ b) : Int), 10 ^ b.length)
    else none
  | _ => none

/-- The rewritten cell text `f"{code}: {description}"`. -/
def rewriteLabel (code description : String) : String :=
  code ++ ": " ++ description

/-- `series.replace(old, new)`: rewrite every cell that compares `==` to
`old` (a fresh series; `replace` is not in-place). -/
def pandasReplace (series : List Value) (old new : Value) : List Value :=
  series.map (fun v => if pyEq v old then new else v)

/-- The substitution loop of `apply_categorical_mapping`: for each
`(code, description)` in order, numeric-looking codes are replaced through
`float(code)` (which can raise `ValueError`), other codes by exact match. -/
def applyCodes : List (String × String) → List Value → Except String (List Value)
  | [], series => .ok series
  | (code, description) :: rest, series =>
    if isNumericCode code then
      match parseFloatCode code with
      | some q =>
        applyCodes rest
          (pandasReplace series (.num q.1 q.2) (.str (rewriteLabel code description)))
      | none => .error s!"could not convert string to float: {code}"
    else
      applyCodes rest
        (pandasReplace series (.str code) (.str (rewriteLabel code description)))

/-- `DatabaseProcessor.apply_categorical_mapping`.  The first component is
the caller's dataframe after the call (the source never mutates it: it copies
the column and uses non-in-place `replace`); the second is the returned
value — printed warnings paired with `None` or the resulting series — or the
propagated exception. -/
def apply_categorical_mapping (m : Metadata) (df : Table) (column_name : String) :
    Table × Except String (List String × Option (List Value)) :=
  if !df.hasCol column_name then
    (df, .ok ([s!"Warning: Column {column_name} not found in DataFrame"], none))
  else
    let categorical_cols := get_categorical_columns m
    match dlookup categorical_cols column_name with
    | none =>
      (df, .ok ([s!"Warning: No categorical mapping found for {column_name}"],
        some (df.getColD column_name)))
    | some categories =>
      let series := df.getColD column_name
      (df, (applyCodes categories series).map (fun s => ([], some s)))

/-! ## Configuration load (`load_metadata` and `DatabaseProcessor.__init__`) -/

/-- A parsed JSON document. -/
inductive Json where
  | null
  | bool (b : Bool)
  | num (n : Int)
  | str (s : String)
  | arr (xs : List Json)
  | obj (fields : List (String × Json))

/-- A raised Python exception, carrying its message or key. -/
inductive PyError where
  | fileNotFound (msg : String)
  | valueError (msg : String)
  | keyError (key : String)
  | typeError (msg : String)
  deriving DecidableEq, Repr

/-- The spec's `ConfigNotFound` error kind: the `FileNotFoundError` re-raised
by `load_metadata` for a missing file. -/
def isConfigNotFound : PyError → Bool
  | .fileNotFound _ => true
  | _ => false

/-- The spec's `ConfigMalformed` error kind: the `ValueError` raised by
`load_metadata` for content that is not valid JSON. -/
def isConfigMalformed : PyError → Bool
  | .valueError _ => true
  | _ => false

/-- The file system, at parse granularity: a stored `none` content stands for
text that `json.load` fails to decode, a stored `some j` for text that
decodes to the document `j`; an absent path is a missing file. -/
abbrev FileSystem := List (String × Option Json)

/-- `DatabaseProcessor.load_metadata`: open and JSON-decode the metadata
file; a missing file re-raises `FileNotFoundError`, undecodable content
raises `ValueError`. -/
def load_metadata (fs : FileSystem) (metadata_file : String) :
    Except PyError Json :=
  match dlookup fs metadata_file with
  | none =>
    .error (.fileNotFound
      s!"Metadata file {metadata_file} not found. Please ensure the JSON file exists.")
  | some none => .error (.valueError s!"Invalid JSON format in {metadata_file}")
  | some (some j) => .ok j

/-- Python subscript `j[key]` on a parsed JSON document: `KeyError` on an
object without the key, `TypeError` on a non-object. -/
def jsonSubscript (j : Json) (key : String) : Except PyError Json :=
  match j with
  | .obj fields =>
    match dlookup fields key with
    | some v => .ok v
    | none => .error (.keyError key)
  | _ => .error (.typeError "value is not subscriptable by string key")

/-- `DatabaseProcessor.__init__`: load the metadata and read
`self.metadata['column_mappings']`; returns the pair
`(self.metadata, self.column_mappings)`. -/
def databaseProcessor_init (fs : FileSystem) (metadata_file : String) :
    Except PyError (Json × Json) :=
  match load_metadata fs metadata_file with
  | .error e => .error e
  | .ok metadata =>
    match jsonSubscript metadata "column_mappings" with
    | .error e => .error e
    | .ok cm => .ok (metadata, cm)

/-! ## Per-cell view of the substitution loop

`pandasReplace` acts cell-wise, so the whole loop is a per-cell fold; the
definitions below express that view and are related to `applyCodes` by the
lemmas further down. -/

/-- The cell value that `(code, description)` looks for: the parsed float for
a numeric-looking code (`none` when `float` would raise), the raw code string
otherwise. -/
def codeTargetOpt (code : String) : Option Value :=
  if isNumericCode code then (parseFloatCode code).map (fun q => Value.num q.1 q.2)
  else some (.str code)

/-- Whether a `(code, description)` pair matches a cell value. -/
def matchesCode (cd : String × String) (v : Value) : Bool :=
  match codeTargetOpt cd.1 with
  | some t => pyEq v t
  | none => false

/-- The effect of one `(code, description)` pair on one cell. -/
def cellStep (v : Value) (cd : String × String) : Value :=
  match codeTargetOpt cd.1 with
  | some t => if pyEq v t then .str (rewriteLabel cd.1 cd.2) else v
  | none => v

/-- The effect of the whole categories table on one cell, in iteration
order. -/
def cellFold (cats : List (String × String)) (v : Value) : Value :=
  cats.foldl cellStep v

/-- Every numeric-looking code of the table converts to a float without
raising. -/
def catsOkB (cats : List (String × String)) : Bool :=
  cats.all (fun cd => !isNumericCode cd.1 || (parseFloatCode cd.1).isSome)

/-- No code of the table matches any rewritten `"code: description"` string
(the collision-freedom precondition for idempotence). -/
def noCollisionB (cats : List (String × String)) : Bool :=
  cats.all (fun cd =>
    cats.all (fun cd' => !matchesCode cd' (.str (rewriteLabel cd.1 cd.2))))

/-! ## Claim-side characterisations of numeric-code detection -/

/-- The claim's numeric-code criterion, as worded: after removing at most
one decimal point from the code string, the remaining characters are all
digits (and there is at least one of them). -/
def specNumericAtMostOneDot (code : String) : Bool :=
  decide (code.data.count '.' ≤ 1)
    && (stripDots code).all Char.isDigit
    && !(stripDots code).isEmpty

/-- The amended numeric-code criterion: every character of the code is a
digit or a decimal point (no matter how many decimal points), and at least
one character is a digit. -/
def specNumericAllDotsRemoved (code : String) : Bool :=
  code.data.all (fun c => c.isDigit || decide (c = '.'))
    && code.data.any Char.isDigit

/-! ## Concrete instances used by the claim theorems and witnesses -/

/-- Metadata whose single categories table holds the malformed code
`"1.2.3"`. -/
def mC1 : Metadata := [("V", ⟨"v", "categorical", some [("1.2.3", "bad")]⟩)]

/-- A table whose `v` column holds exactly the raw string `"1.2.3"`. -/
def dfC1 : Table := ⟨[("v", [Value.str "1.2.3"])]⟩

/-- Metadata with two category codes, `"1"` and `"1.0"`, that both match the
numeric cell value 1. -/
def mC2 : Metadata :=
  [("O", ⟨"col", "categorical", some [("1", "Male"), ("1.0", "One")]⟩)]

/-- A table whose `col` column holds the single numeric cell 1. -/
def dfC2 : Table := ⟨[("col", [Value.num 1 1])]⟩

/-- A file system whose metadata file decodes to the JSON object `{}`:
valid JSON without the `column_mappings` key. -/
def fsC3 : FileSystem := [("db_metadata.json", some (Json.obj []))]

/-- The spec's worked example: `{"1": "Male", "2": "Female"}` on a sex
column. -/
def mC4 : Metadata :=
  [("SEX", ⟨"sex", "categorical", some [("1", "Male"), ("2", "Female")]⟩)]

/-- The spec's worked example table: numeric values `[1.0, 2.0, 1.0]`. -/
def dfC4 : Table := ⟨[("sex", [Value.num 1 1, Value.num 2 1, Value.num 1 1])]⟩

/-- A table without a `ghost` column. -/
def dfW6 : Table := ⟨[("age", [Value.num 30 1])]⟩

/-- Metadata whose single entry is not categorical. -/
def mW7 : Metadata := [("AGE", ⟨"age", "numeric", none⟩)]

/-- A table with an `age` column that has no categorical entry. -/
def dfW7 : Table := ⟨[("age", [Value.num 30 1])]⟩

/-- A categorical sex mapping used to exercise idempotence. -/
def mW9 : Metadata :=
  [("SEX", ⟨"sex", "categorical", some [("1", "Male"), ("2", "Female")]⟩)]

/-- A table with one sex column of numeric codes. -/
def dfW9 : Table := ⟨[("sex", [Value.num 1 1, Value.num 2 1])]⟩

/-- The substituted value sequence produced from `dfW9` by `mW9`. -/
def sW9 : List Value := [Value.str "1: Male", Value.str "2: Female"]

/-- Metadata whose single entry is categorical with an empty categories
table. -/
def mW10 : Metadata := [("SEX", ⟨"sex", "categorical", some []⟩)]

/-- A table with a `sex` column, for the empty-categories case. -/
def dfW10 : Table := ⟨[("sex", [Value.num 1 1])]⟩

/-- A file system whose metadata file content is not valid JSON. -/
def fsW3 : FileSystem := [("db_metadata.json", none)]

/-! ## Helper lemmas -/

theorem pyEq_str (v : Value) (s : String) :
    pyEq v (.str s) = decide (v = Value.str s) := by
  cases v with
  | num n d => simp [pyEq]
  | str t => simp [pyEq, Value.str.injEq]

theorem cellStep_of_match {cd : String × String} {v : Value}
    (h : matchesCode cd v = true) :
    cellStep v cd = .str (rewriteLabel cd.1 cd.2) := by
  rw [matchesCode] at h
  rw [cellStep]
  cases ht : codeTargetOpt cd.1 with
  | none => rw [ht] at h; simp at h
  | some t =>
    rw [ht] at h
    simp only [] at h
    simp [h]

theorem cellStep_of_noMatch {cd : String × String} {v : Value}
    (h : matchesCode cd v = false) :
    cellStep v cd = v := by
  rw [matchesCode] at h
  rw [cellStep]
  cases ht : codeTargetOpt cd.1 with
  | none => rfl
  | some t =>
    rw [ht] at h
    simp only [] at h
    simp [h]

theorem cellFold_of_noMatch (cats : List (String × String)) (v : Value)
    (h : ∀ cd ∈ cats, matchesCode cd v = false) :
    cellFold cats v = v := by
  induction cats with
  | nil => rfl
  | cons cd rest ih =>
    have hstep : cellFold (cd :: rest) v = cellFold rest (cellStep v cd) := rfl
    rw [hstep, cellStep_of_noMatch (h cd (List.mem_cons_self _ _))]
    exact ih (fun cd' h' => h cd' (List.mem_cons_of_mem _ h'))

theorem noCollision_spec {cats : List (String × String)}
    (h : noCollisionB cats = true) :
    ∀ cd ∈ cats, ∀ cd' ∈ cats,
      matchesCode cd' (.str (rewriteLabel cd.1 cd.2)) = false := by
  intro cd hcd cd' hcd'
  rw [noCollisionB, List.all_eq_true] at h
  have h2 := h cd hcd
  rw [List.all_eq_true] at h2
  simpa using h2 cd' hcd'

theorem cellFold_find (cats : List (String × String)) (v : Value)
    (hnc : ∀ cd ∈ cats, ∀ cd' ∈ cats,
      matchesCode cd' (.str (rewriteLabel cd.1 cd.2)) = false) :
    cellFold cats v =
      (match cats.find? (fun cd => matchesCode cd v) with
       | some cd => Value.str (rewriteLabel cd.1 cd.2)
       | none => v) := by
  induction cats with
  | nil => rfl
  | cons cd rest ih =>
    have hstep : cellFold (cd :: rest) v = cellFold rest (cellStep v cd) := rfl
    cases hm : matchesCode cd v with
    | false =>
      rw [List.find?_cons_of_neg _ (by simp [hm]), hstep, cellStep_of_noMatch hm]
      exact ih (fun a ha a' ha' =>
        hnc a (List.mem_cons_of_mem _ ha) a' (List.mem_cons_of_mem _ ha'))
    | true =>
      rw [List.find?_cons_of_pos _ (by simp [hm]), hstep, cellStep_of_match hm]
      exact cellFold_of_noMatch rest _ (fun cd' h' =>
        hnc cd (List.mem_cons_self _ _) cd' (List.mem_cons_of_mem _ h'))

theorem cellFold_idem (cats : List (String × String)) (v : Value)
    (hnc : noCollisionB cats = true) :
    cellFold cats (cellFold cats v) = cellFold cats v := by
  have hs := noCollision_spec hnc
  cases hf : cats.find? (fun cd => matchesCode cd v) with
  | none =>
    have hv : cellFold cats v = v := by rw [cellFold_find cats v hs, hf]
    rw [hv, hv]
  | some cd =>
    have hv : cellFold cats v = .str (rewriteLabel cd.1 cd.2) := by
      rw [cellFold_find cats v hs, hf]
    have hmem : cd ∈ cats := List.mem_of_find?_eq_some hf
    rw [hv]
    exact cellFold_of_noMatch cats _ (fun cd' h' => hs cd hmem cd' h')

theorem replace_map_cellFold (cd : String × String) (t : Value)
    (rest : List (String × String)) (series : List Value)
    (ht : codeTargetOpt cd.1 = some t) :
    (pandasReplace series t (.str (rewriteLabel cd.1 cd.2))).map (cellFold rest)
      = series.map (cellFold (cd :: rest)) := by
  rw [pandasReplace, List.map_map]
  apply List.map_congr_left
  intro v _
  have hstep : cellFold (cd :: rest) v = cellFold rest (cellStep v cd) := rfl
  rw [hstep]
  simp [Function.comp, cellStep, ht]

theorem map_cellFold_nil (s : List Value) : s.map (cellFold []) = s := by
  conv_rhs => rw [← List.map_id s]
  exact List.map_congr_left (fun v _ => rfl)

theorem applyCodes_eq_ok (cats : List (String × String)) (series : List Value)
    (h : catsOkB cats = true) :
    applyCodes cats series = .ok (series.map (cellFold cats)) := by
  induction cats generalizing series with
  | nil => rw [applyCodes, map_cellFold_nil]
  | cons cd rest ih =>
    obtain ⟨c, d⟩ := cd
    rw [catsOkB, List.all_cons] at h
    simp only [Bool.and_eq_true] at h
    obtain ⟨h1, h2⟩ := h
    rw [applyCodes]
    by_cases hn : isNumericCode c = true
    · simp only [hn, Bool.not_true, Bool.false_or] at h1
      obtain ⟨q, hq⟩ := Option.isSome_iff_exists.mp h1
      have ht : codeTargetOpt c = some (Value.num q.1 q.2) := by
        simp [codeTargetOpt, hn, hq]
      simp only [hn, if_true, hq]
      rw [ih _ h2, replace_map_cellFold (c, d) _ rest series ht]
    · have hnb : isNumericCode c = false := by simpa using hn
      have ht : codeTargetOpt c = some (Value.str c) := by
        simp [codeTargetOpt, hnb]
      rw [if_neg hn, ih _ h2, replace_map_cellFold (c, d) _ rest series ht]

theorem applyCodes_ok_imp (cats : List (String × String)) (series out : List Value)
    (h : applyCodes cats series = .ok out) :
    catsOkB cats = true ∧ out = series.map (cellFold cats) := by
  induction cats generalizing series with
  | nil =>
    rw [applyCodes] at h
    refine ⟨rfl, ?_⟩
    simp only [Except.ok.injEq] at h
    rw [map_cellFold_nil]
    exact h.symm
  | cons cd rest ih =>
    obtain ⟨c, d⟩ := cd
    rw [applyCodes] at h
    by_cases hn : isNumericCode c = true
    · rw [if_pos hn] at h
      cases hq : parseFloatCode c with
      | none => rw [hq] at h; cases h
      | some q =>
        rw [hq] at h
        obtain ⟨hok, hout⟩ := ih _ h
        have ht : codeTargetOpt c = some (Value.num q.1 q.2) := by
          simp [codeTargetOpt, hn, hq]
        refine ⟨?_, ?_⟩
        · rw [catsOkB, List.all_cons, Bool.and_eq_true]
          refine ⟨by simp [hn, hq], ?_⟩
          rw [catsOkB] at hok
          exact hok
        · rw [hout, replace_map_cellFold (c, d) _ rest series ht]
    · rw [if_neg hn] at h
      have hnb : isNumericCode c = false := by simpa using hn
      obtain ⟨hok, hout⟩ := ih _ h
      have ht : codeTargetOpt c = some (Value.str c) := by
        simp [codeTargetOpt, hnb]
      refine ⟨?_, ?_⟩
      · rw [catsOkB, List.all_cons, Bool.and_eq_true]
        refine ⟨by simp [hnb], ?_⟩
        rw [catsOkB] at hok
        exact hok
      · rw [hout, replace_map_cellFold (c, d) _ rest series ht]

theorem applyCodes_append (l₁ l₂ : List (String × String)) (series : List Value) :
    applyCodes (l₁ ++ l₂) series =
      (applyCodes l₁ series).bind (fun s => applyCodes l₂ s) := by
  induction l₁ generalizing series with
  | nil => rfl
  | cons cd rest ih =>
    obtain ⟨c, d⟩ := cd
    rw [List.cons_append, applyCodes, applyCodes]
    by_cases hn : isNumericCode c = true
    · rw [if_pos hn, if_pos hn]
      cases hq : parseFloatCode c with
      | none => rfl
      | some q => exact ih _
    · rw [if_neg hn, if_neg hn]
      exact ih _

theorem hasCol_of_mem {df : Table} {c : String × List Value} (h : c ∈ df.cols) :
    df.hasCol c.1 = true := by
  rw [Table.hasCol, List.any_eq_true]
  exact ⟨c, h, by simp⟩

theorem setCol_hasCol (df : Table) (n : String) (vs : List Value) (k : String) :
    (df.setCol n vs).hasCol k = df.hasCol k := by
  simp only [Table.setCol, Table.hasCol, List.any_map]
  congr 1
  funext c
  by_cases h : c.1 = n <;> simp [h, Function.comp]

theorem find?_setColL (cols : List (String × List Value)) (n : String)
    (vs : List Value) (h : cols.any (fun c => decide (c.1 = n)) = true) :
    (cols.map (fun c => if c.1 = n then (c.1, vs) else c)).find?
      (fun c => decide (c.1 = n)) = some (n, vs) := by
  induction cols with
  | nil => simp at h
  | cons c cs ih =>
    by_cases hc : c.1 = n
    · simp [hc]
    · have h' : cs.any (fun c => decide (c.1 = n)) = true := by
        simpa [List.any_cons, hc] using h
      simp [hc, ih h']

theorem setCol_getColD (df : Table) (n : String) (vs : List Value)
    (h : df.hasCol n = true) :
    (df.setCol n vs).getColD n = vs := by
  rw [Table.hasCol] at h
  rw [Table.setCol, Table.getColD]
  rw [find?_setColL df.cols n vs h]

theorem dlookup_eq_some_imp {α : Type} {l : List (String × α)} {k : String}
    {v : α} (h : dlookup l k = some v) : ∃ q ∈ l, q.1 = k := by
  induction l with
  | nil => cases h
  | cons q qs ih =>
    rw [dlookup] at h
    by_cases hq : q.1 = k
    · exact ⟨q, List.mem_cons_self _ _, hq⟩
    · rw [if_neg hq] at h
      obtain ⟨r, hr, hrk⟩ := ih h
      exact ⟨r, List.mem_cons_of_mem _ hr, hrk⟩

theorem dlookup_filter {α : Type} (l : List (String × α)) (p : String × α → Bool)
    (k : String) (hk : ∀ q ∈ l, q.1 = k → p q = true) :
    dlookup (l.filter p) k = dlookup l k := by
  induction l with
  | nil => rfl
  | cons q qs ih =>
    have ih' := ih (fun r hr => hk r (List.mem_cons_of_mem _ hr))
    by_cases hq : q.1 = k
    · have hp : p q = true := hk q (List.mem_cons_self _ _) hq
      rw [List.filter_cons_of_pos hp, dlookup, dlookup, if_pos hq, if_pos hq]
    · cases hp : p q with
      | false =>
        rw [List.filter_cons_of_neg (by simp [hp]), dlookup, if_neg hq, ih']
      | true =>
        rw [List.filter_cons_of_pos hp, dlookup, dlookup, if_neg hq, if_neg hq, ih']

theorem dlookup_mapOverwrite {α : Type} (d : List (String × α)) (key : String)
    (v : α) (k : String) (hne : key ≠ k) :
    dlookup (d.map (fun p => if p.1 = key then (key, v) else p)) k = dlookup d k := by
  induction d with
  | nil => rfl
  | cons q qs ih =>
    rw [List.map_cons]
    by_cases hq : q.1 = key
    · rw [if_pos hq, dlookup, dlookup, if_neg hne, if_neg (hq ▸ hne ∘ Eq.symm ∘ Eq.symm)]
      exact ih
    · rw [if_neg hq, dlookup, dlookup]
      by_cases hk : q.1 = k
      · rw [if_pos hk, if_pos hk]
      · rw [if_neg hk, if_neg hk, ih]

theorem dlookup_append_single {α : Type} (d : List (String × α)) (key : String)
    (v : α) (k : String) (hne : key ≠ k) :
    dlookup (d ++ [(key, v)]) k = dlookup d k := by
  induction d with
  | nil => simp [dlookup, hne]
  | cons q qs ih =>
    rw [List.cons_append, dlookup, dlookup]
    by_cases hq : q.1 = k
    · rw [if_pos hq, if_pos hq]
    · rw [if_neg hq, if_neg hq, ih]

theorem dlookup_dinsert_ne {α : Type} (d : List (String × α)) (key : String)
    (v : α) (k : String) (hne : key ≠ k) :
    dlookup (dinsert d key v) k = dlookup d k := by
  rw [dinsert]
  by_cases hany : d.any (fun p => decide (p.1 = key)) = true
  · rw [if_pos hany]
    exact dlookup_mapOverwrite d key v k hne
  · rw [if_neg hany]
    exact dlookup_append_single d key v k hne

theorem gcc_foldl_aux (m : Metadata) (col : String)
    (h : ∀ p ∈ m, p.2.new_name = col → categoricalGuard p = false) :
    ∀ acc : List (String × List (String × String)), dlookup acc col = none →
      dlookup
        (m.foldl
          (fun acc p =>
            if categoricalGuard p then
              dinsert acc p.2.new_name (p.2.categories.getD [])
            else acc)
          acc) col = none := by
  induction m with
  | nil => intro acc hacc; exact hacc
  | cons p ps ih =>
    intro acc hacc
    rw [List.foldl_cons]
    apply ih (fun q hq => h q (List.mem_cons_of_mem _ hq))
    by_cases hg : categoricalGuard p = true
    · rw [if_pos hg]
      have hne : p.2.new_name ≠ col := by
        intro he
        rw [h p (List.mem_cons_self _ _) he] at hg
        cases hg
      rw [dlookup_dinsert_ne _ _ _ _ hne]
      exact hacc
    · rw [if_neg hg]
      exact hacc

theorem gcc_lookup_none (m : Metadata) (col : String)
    (h : ∀ p ∈ m, p.2.new_name = col → categoricalGuard p = false) :
    dlookup (get_categorical_columns m) col = none := by
  rw [get_categorical_columns]
  exact gcc_foldl_aux m col h [] rfl

theorem stripDots_all_digits (l : List Char) :
    (l.filter (fun c => decide (c ≠ '.'))).all Char.isDigit
      = l.all (fun c => c.isDigit || decide (c = '.')) := by
  induction l with
  | nil => rfl
  | cons c cs ih =>
    by_cases hc : c = '.'
    · rw [List.filter_cons_of_neg (by simp [hc]), List.all_cons, ih]
      subst hc
      have hor : (Char.isDigit '.' || decide (('.' : Char) = '.')) = true := by simp
      rw [hor, Bool.true_and]
    · rw [List.filter_cons_of_pos (by simp [hc]), List.all_cons, List.all_cons, ih]
      have hor : (c.isDigit || decide (c = '.')) = c.isDigit := by simp [hc]
      rw [hor]

theorem isNumericCode_eq_amended (code : String) :
    isNumericCode code = specNumericAllDotsRemoved code := by
  rw [isNumericCode, specNumericAllDotsRemoved, stripDots, stripDots_all_digits]
  generalize code.data = l
  induction l with
  | nil => rfl
  | cons c cs ih =>
    by_cases hc : c = '.'
    · subst hc
      have hd : ('.' : Char).isDigit = false := rfl
      simp only [List.filter_cons, List.all_cons, List.any_cons, hd,
        decide_not, Bool.or_true, Bool.true_and, Bool.false_or]
      simpa using ih
    · cases hd : c.isDigit with
      | true => simp [List.filter_cons, hc, hd]
      | false => simp [List.filter_cons, hc, hd]

theorem applyCodes_single_nonNumeric (code desc : String) (series : List Value)
    (h : isNumericCode code = false) :
    applyCodes [(code, desc)] series =
      .ok (series.map (fun v =>
        if v = Value.str code then Value.str (rewriteLabel code desc) else v)) := by
  rw [applyCodes, if_neg (by simp [h]), applyCodes]
  congr 1
  rw [pandasReplace]
  apply List.map_congr_left
  intro v _
  rw [pyEq_str]
  by_cases hv : v = Value.str code <;> simp [hv]

/-! ## Claim theorems -/

/-- C1, counterexample.  The claim's numeric-code criterion ("after removing
at most one decimal point the remaining characters are all digits") disagrees
with the code for `"1.2.3"`: the source removes every decimal point, so
`"1.2.3".replace('.', '').isdigit()` is true, and `float("1.2.3")` then
raises `ValueError` — instead of the exact string comparison the claim
requires for a non-numeric code. -/
theorem C1_counterexample :
    specNumericAtMostOneDot "1.2.3" = false ∧
    isNumericCode "1.2.3" = true ∧
    (apply_categorical_mapping mC1 dfC1 "v").2 =
      .error "could not convert string to float: 1.2.3" :=
  ⟨by decide, by decide, rfl⟩

/-- C1 (amended).  A code is treated as numeric iff, after removing every
decimal point, the remaining characters are all digits (equivalently: every
character is a digit or a decimal point, with at least one digit); a numeric
code whose `float` conversion succeeds is compared to cell values numerically
after that conversion; a numeric code whose conversion fails (two or more
decimal points) makes the call raise `ValueError`; every other code is
compared by exact equality against the raw cell value. -/
theorem C1_numeric_detection_amended (code desc : String) (series : List Value) :
    isNumericCode code = specNumericAllDotsRemoved code ∧
    (isNumericCode code = false →
      applyCodes [(code, desc)] series =
        .ok (series.map (fun v =>
          if v = Value.str code then Value.str (rewriteLabel code desc) else v))) ∧
    (∀ n : Int, ∀ d : Nat, isNumericCode code = true →
      parseFloatCode code = some (n, d) →
      applyCodes [(code, desc)] series =
        .ok (series.map (fun v =>
          if pyEq v (Value.num n d) then Value.str (rewriteLabel code desc) else v))) ∧
    (isNumericCode code = true → parseFloatCode code = none →
      applyCodes [(code, desc)] series =
        .error s!"could not convert string to float: {code}") := by
  refine ⟨isNumericCode_eq_amended code, applyCodes_single_nonNumeric code desc series,
    ?_, ?_⟩
  · intro n d hn hp
    rw [applyCodes, if_pos hn, hp]
    rfl
  · intro hn hp
    rw [applyCodes, if_pos hn, hp]

/-- C1 amended, witness at the non-numeric code `"Y"`: it is matched by
exact equality and rewrites only the matching cell. -/
theorem C1_numeric_detection_amended_witness :
    applyCodes [("Y", "Yes")] [Value.str "Y", Value.num 1 1] =
      .ok [Value.str "Y: Yes", Value.num 1 1] := by
  have h :=
    (C1_numeric_detection_amended "Y" "Yes" [Value.str "Y", Value.num 1 1]).2.1
      (by decide)
  rw [h]
  rfl

/-- C2, counterexample.  The codes `"1"` and `"1.0"` both match the physical
cell value 1, yet the final value is the first code's rewrite `"1: Male"`,
not the later code's `"1.0: One"`: after the first rewrite the cell is a
string and the later numeric code no longer matches it. -/
theorem C2_counterexample :
    matchesCode ("1", "Male") (Value.num 1 1) = true ∧
    matchesCode ("1.0", "One") (Value.num 1 1) = true ∧
    (apply_categorical_mapping mC2 dfC2 "col").2 =
      .ok ([], some [Value.str "1: Male"]) ∧
    Value.str "1: Male" ≠ Value.str "1.0: One" :=
  ⟨by decide, by decide, rfl, by decide⟩

/-- C2 (amended).  Substitutions are applied code-by-code in the mapping's
iteration order (the loop over a list prefix composes with the loop over the
rest), and when every numeric-looking code converts and no code matches a
rewritten string, each cell's final value is determined by the EARLIEST code
matching its raw value — later matching codes no longer rewrite it, because
the cell has already been turned into a string. -/
theorem C2_iteration_order_amended (l₁ l₂ cats : List (String × String))
    (series : List Value) (v : Value)
    (hok : catsOkB cats = true) (hnc : noCollisionB cats = true) :
    applyCodes (l₁ ++ l₂) series =
      (applyCodes l₁ series).bind (fun s => applyCodes l₂ s) ∧
    applyCodes cats series = .ok (series.map (cellFold cats)) ∧
    cellFold cats v =
      (match cats.find? (fun cd => matchesCode cd v) with
       | some cd => Value.str (rewriteLabel cd.1 cd.2)
       | none => v) :=
  ⟨applyCodes_append l₁ l₂ series, applyCodes_eq_ok cats series hok,
    cellFold_find cats v (noCollision_spec hnc)⟩

/-- C2 amended, witness on the sex mapping with the cell value 1. -/
theorem C2_iteration_order_amended_witness :
    applyCodes ([("1", "Male")] ++ [("2", "Female")]) [Value.num 1 1] =
      (applyCodes [("1", "Male")] [Value.num 1 1]).bind
        (fun s => applyCodes [("2", "Female")] s) ∧
    applyCodes [("1", "Male"), ("2", "Female")] [Value.num 1 1] =
      .ok ([Value.num 1 1].map (cellFold [("1", "Male"), ("2", "Female")])) ∧
    cellFold [("1", "Male"), ("2", "Female")] (Value.num 1 1) =
      (match [("1", "Male"), ("2", "Female")].find?
          (fun cd => matchesCode cd (Value.num 1 1)) with
       | some cd => Value.str (rewriteLabel cd.1 cd.2)
       | none => Value.num 1 1) :=
  C2_iteration_order_amended [("1", "Male")] [("2", "Female")]
    [("1", "Male"), ("2", "Female")] [Value.num 1 1] (Value.num 1 1)
    (by decide) (by decide)

/-- C3, counterexample.  A file whose content is the valid JSON object `{}`
(no `column_mappings` key) makes construction fail with `KeyError`, which is
neither the `ConfigNotFound` kind (`FileNotFoundError`) nor the
`ConfigMalformed` kind (`ValueError`): the claim's "valid JSON lacking the
expected structure raises ConfigMalformed" and "only two fatal error kinds"
are both false on the code. -/
theorem C3_counterexample :
    databaseProcessor_init fsC3 "db_metadata.json" =
      .error (PyError.keyError "column_mappings") ∧
    isConfigNotFound (PyError.keyError "column_mappings") = false ∧
    isConfigMalformed (PyError.keyError "column_mappings") = false :=
  ⟨rfl, rfl, rfl⟩

/-- C3 (amended).  Construction fails with `ConfigNotFound`
(`FileNotFoundError`) when the metadata file is absent and with
`ConfigMalformed` (`ValueError`) when its content is not decodable JSON;
content that is valid JSON but lacks the `column_mappings` key fails with a
distinct `KeyError` instead, so those two are not the only fatal error kinds
raised during load.  When the key is present, construction succeeds. -/
theorem C3_load_errors_amended (fs : FileSystem) (path : String) :
    (dlookup fs path = none →
      databaseProcessor_init fs path =
        .error (.fileNotFound
          s!"Metadata file {path} not found. Please ensure the JSON file exists.")) ∧
    (dlookup fs path = some none →
      databaseProcessor_init fs path =
        .error (.valueError s!"Invalid JSON format in {path}")) ∧
    (∀ fields : List (String × Json),
      dlookup fs path = some (some (Json.obj fields)) →
      dlookup fields "column_mappings" = none →
      databaseProcessor_init fs path = .error (.keyError "column_mappings")) ∧
    (∀ fields : List (String × Json), ∀ cm : Json,
      dlookup fs path = some (some (Json.obj fields)) →
      dlookup fields "column_mappings" = some cm →
      databaseProcessor_init fs path = .ok (Json.obj fields, cm)) := by
  refine ⟨?_, ?_, ?_, ?_⟩
  · intro h
    rw [databaseProcessor_init, load_metadata, h]
  · intro h
    rw [databaseProcessor_init, load_metadata, h]
  · intro fields h hk
    rw [databaseProcessor_init, load_metadata, h]
    simp only [jsonSubscript, hk]
  · intro fields cm h hk
    rw [databaseProcessor_init, load_metadata, h]
    simp only [jsonSubscript, hk]

/-- C3 amended, witness: a present but undecodable file fails with the
`ConfigMalformed` kind (`ValueError`). -/
theorem C3_load_errors_amended_witness :
    databaseProcessor_init fsW3 "db_metadata.json" =
      .error (PyError.valueError "Invalid JSON format in db_metadata.json") :=
  (C3_load_errors_amended fsW3 "db_metadata.json").2.1 rfl

/-- C4.  On the mapping `{"1": "Male", "2": "Female"}` and the numeric column
`[1.0, 2.0, 1.0]`, substitution yields
`["1: Male", "2: Female", "1: Male"]` (with no warnings and no error). -/
theorem C4_example_substitution :
    apply_categorical_mapping mC4 dfC4 "sex" =
      (dfC4, .ok ([], some [Value.str "1: Male", Value.str "2: Female",
        Value.str "1: Male"])) :=
  rfl

/-- C5.  `rename_columns` maps every column name through the loaded mapping
(old name to `new_name`) when the old name is present there, leaves column
names absent from the mapping untouched, silently ignores mapping entries
whose original name is not a column of the table, and changes no cell
values — in particular, when every column is present in the mapping, every
column is renamed. -/
theorem C5_rename_columns (m : Metadata) (df : Table) :
    (rename_columns m df).1.cols =
      df.cols.map (fun c => ((dlookup (get_column_mapping m) c.1).getD c.1, c.2)) := by
  rw [rename_columns]
  by_cases he :
      (List.filter (fun p => df.hasCol p.1) (get_column_mapping m)).isEmpty = true
  · rw [if_pos he]
    have hnone : ∀ c ∈ df.cols, dlookup (get_column_mapping m) c.1 = none := by
      intro c hc
      cases hl : dlookup (get_column_mapping m) c.1 with
      | none => rfl
      | some x =>
        obtain ⟨q, hq, hqk⟩ := dlookup_eq_some_imp hl
        have hp : df.hasCol q.1 = true := by rw [hqk]; exact hasCol_of_mem hc
        have hmem : q ∈ List.filter (fun p => df.hasCol p.1) (get_column_mapping m) :=
          List.mem_filter.mpr ⟨hq, hp⟩
        rw [List.isEmpty_iff] at he
        rw [he] at hmem
        cases hmem
    symm
    calc df.cols.map (fun c => ((dlookup (get_column_mapping m) c.1).getD c.1, c.2))
        = df.cols.map id :=
          List.map_congr_left (fun c hc => by rw [hnone c hc]; exact Prod.mk.eta)
      _ = df.cols := List.map_id df.cols
  · rw [if_neg he]
    apply List.map_congr_left
    intro c hc
    have hfil :
        dlookup (List.filter (fun p => df.hasCol p.1) (get_column_mapping m)) c.1 =
          dlookup (get_column_mapping m) c.1 :=
      dlookup_filter (get_column_mapping m) (fun p => df.hasCol p.1) c.1
        (fun q _ hqk => by
          show df.hasCol q.1 = true
          rw [hqk]
          exact hasCol_of_mem hc)
    rw [hfil]

/-- C6.  On a column absent from the table, `apply_categorical_mapping`
prints a warning and returns `None`, without raising and without touching the
table. -/
theorem C6_missing_column (m : Metadata) (df : Table) (column_name : String)
    (h : df.hasCol column_name = false) :
    apply_categorical_mapping m df column_name =
      (df, .ok ([s!"Warning: Column {column_name} not found in DataFrame"], none)) := by
  rw [apply_categorical_mapping, if_pos (by rw [h]; rfl)]

/-- C6, witness: the table `dfW6` has no `ghost` column. -/
theorem C6_missing_column_witness :
    apply_categorical_mapping [] dfW6 "ghost" =
      (dfW6, .ok (["Warning: Column ghost not found in DataFrame"], none)) :=
  C6_missing_column [] dfW6 "ghost" (by decide)

/-- C7.  On a column that exists in the table but has no categorical entry in
the loaded mapping, `apply_categorical_mapping` prints a warning and returns
the column's values unchanged. -/
theorem C7_no_categorical_entry (m : Metadata) (df : Table) (column_name : String)
    (h1 : df.hasCol column_name = true)
    (h2 : dlookup (get_categorical_columns m) column_name = none) :
    apply_categorical_mapping m df column_name =
      (df, .ok ([s!"Warning: No categorical mapping found for {column_name}"],
        some (df.getColD column_name))) := by
  rw [apply_categorical_mapping, if_neg (by rw [h1]; simp)]
  simp only [h2]

/-- C7, witness: `age` exists in the table but `mW7` has no categorical entry
for it. -/
theorem C7_no_categorical_entry_witness :
    apply_categorical_mapping mW7 dfW7 "age" =
      (dfW7, .ok (["Warning: No categorical mapping found for age"],
        some [Value.num 30 1])) :=
  C7_no_categorical_entry mW7 dfW7 "age" (by decide) (by decide)

/-- C8.  `apply_categorical_mapping` never modifies the caller's dataframe:
the source copies the column and uses non-in-place `replace`, so the
dataframe visible after the call — modelled as the first component of the
result — is the input dataframe, all of whose columns (the target one
included) are unchanged; the produced value sequence is a new list. -/
theorem C8_frame_preservation (m : Metadata) (df : Table) (column_name : String) :
    (apply_categorical_mapping m df column_name).1 = df := by
  cases h : df.hasCol column_name with
  | false => rw [apply_categorical_mapping, if_pos (by rw [h]; rfl)]
  | true =>
    rw [apply_categorical_mapping, if_neg (by rw [h]; simp)]
    cases hd : dlookup (get_categorical_columns m) column_name with
    | none => simp only [hd]
    | some cats => simp only [hd]

/-- C9.  Categorical substitution is idempotent under the collision-freedom
precondition: if the substituted sequence is written back into the column and
the substitution is applied again, the second result equals the first,
provided no code of the column's categories table matches any rewritten
"code: description" string. -/
theorem C9_idempotent (m : Metadata) (df : Table) (col : String)
    (cats : List (String × String)) (s₁ : List Value)
    (hcol : df.hasCol col = true)
    (hcat : dlookup (get_categorical_columns m) col = some cats)
    (hnc : noCollisionB cats = true)
    (h1 : (apply_categorical_mapping m df col).2 = .ok ([], some s₁)) :
    (apply_categorical_mapping m (df.setCol col s₁) col).2 = .ok ([], some s₁) := by
  rw [apply_categorical_mapping, if_neg (by rw [hcol]; simp)] at h1
  simp only [hcat] at h1
  have happly : applyCodes cats (df.getColD col) = .ok s₁ := by
    cases he : applyCodes cats (df.getColD col) with
    | error e => rw [he] at h1; cases h1
    | ok out =>
      rw [he] at h1
      simp only [Except.map, Except.ok.injEq, Prod.mk.injEq, Option.some.injEq,
        true_and] at h1
      rw [h1]
  obtain ⟨hok, hs⟩ := applyCodes_ok_imp cats (df.getColD col) s₁ happly
  have hcol' : (df.setCol col s₁).hasCol col = true := by
    rw [setCol_hasCol]; exact hcol
  have hget : (df.setCol col s₁).getColD col = s₁ := setCol_getColD df col s₁ hcol
  rw [apply_categorical_mapping, if_neg (by rw [hcol']; simp)]
  simp only [hcat, hget]
  rw [applyCodes_eq_ok cats s₁ hok]
  have hfix : s₁.map (cellFold cats) = s₁ := by
    rw [hs, List.map_map]
    exact List.map_congr_left (fun v _ => by
      simp only [Function.comp]
      exact cellFold_idem cats v hnc)
  rw [hfix]
  rfl

/-- C9, witness: writing the substituted sex column back and substituting
again returns the same sequence. -/
theorem C9_idempotent_witness :
    (apply_categorical_mapping mW9 (dfW9.setCol "sex" sW9) "sex").2 =
      .ok ([], some sW9) :=
  C9_idempotent mW9 dfW9 "sex" [("1", "Male"), ("2", "Female")] sW9
    rfl rfl rfl rfl

/-- C10.  When every mapping entry for a column is of type `categorical` but
has an empty or null categories table, the Python truthiness guard excludes
the column from `get_categorical_columns`, so on any table containing the
column `apply_categorical_mapping` prints the no-categorical-mapping warning
and returns the column's values unchanged, neither raising nor rewriting any
cell. -/
theorem C10_empty_categories (m : Metadata) (df : Table) (col : String)
    (hentries : ∀ p ∈ m, p.2.new_name = col →
      p.2.type = "categorical" ∧ (p.2.categories = none ∨ p.2.categories = some []))
    (hcol : df.hasCol col = true) :
    dlookup (get_categorical_columns m) col = none ∧
    apply_categorical_mapping m df col =
      (df, .ok ([s!"Warning: No categorical mapping found for {col}"],
        some (df.getColD col))) := by
  have hg : ∀ p ∈ m, p.2.new_name = col → categoricalGuard p = false := by
    intro p hp hname
    obtain ⟨-, hcases⟩ := hentries p hp hname
    rcases hcases with h | h <;> simp [categoricalGuard, catTruthy, h]
  have hnone := gcc_lookup_none m col hg
  refine ⟨hnone, ?_⟩
  rw [apply_categorical_mapping, if_neg (by rw [hcol]; simp)]
  simp only [hnone]

/-- C10, witness: a categorical entry with an empty categories table is
skipped and the column's values come back unchanged with a warning. -/
theorem C10_empty_categories_witness :
    dlookup (get_categorical_columns mW10) "sex" = none ∧
    apply_categorical_mapping mW10 dfW10 "sex" =
      (dfW10, .ok (["Warning: No categorical mapping found for sex"],
        some [Value.num 1 1])) :=
  C10_empty_categories mW10 dfW10 "sex" (by decide) (by decide)
